import Mathlib

/-!
Verification development for the cold-outreach email pipeline
(`app/crew.py`, `app/schemas.py`, `app/utils/web_scraper.py`,
`app/agents/*.py`, `app/llm/router.py`).

Strings are modelled as `List Char` (Python `str` length and slicing are
character based).  Stateful effects (HTTP fetch, LLM provider calls) are
modelled as explicit parameters; Python exceptions are modelled with
`Except`.  The two regular expressions of `OutreachCrew._parse_json_output`
are modelled by direct backtracking-faithful scanners (derivations in the
comments next to each scanner).
-/

/-- Python strings are modelled as lists of characters. -/
abbrev Chars := List Char

/-- Conversion from a Lean string literal to the character-list model. -/
def S (s : String) : Chars := s.data

/-- `chStarts p s` holds when `p` is a prefix of `s` (Boolean version). -/
def chStarts : Chars → Chars → Bool
  | [], _ => true
  | _ :: _, [] => false
  | a :: as, b :: bs => a = b && chStarts as bs

/-- Model of Python's regex class `\s` (ASCII part; the inputs of this
program are modelled over ASCII whitespace). -/
def isPyWs (c : Char) : Bool :=
  c = ' ' || c = '\t' || c = '\n' || c = '\r' || c = '\x0b' || c = '\x0c'

/-- Drop the longest whitespace prefix: model of a greedy `\s*` that is
immediately followed by a non-whitespace literal in the pattern. -/
def dropWs : Chars → Chars
  | [] => []
  | c :: rest => if isPyWs c then dropWs rest else c :: rest

/-- The three-backtick fence delimiter of the first regex. -/
def ticks : Chars := ['\x60', '\x60', '\x60']

/-!
### Model of regex 1 of `_parse_json_output` (crew.py line 135)

Pattern (with `re.DOTALL`):  triple backtick, optional `json`, `\s*`,
group `(\{.*?\})`, `\s*`, triple backtick.

The lazy group means: starting at the `\x7b` found after the whitespace,
the group closes at the first `\x7d` that is followed (after greedy `\s*`,
which cannot backtick-backtrack since a backtick is not whitespace) by a
triple backtick; any `\x7d` failing that test is consumed into `.*?`.
-/

/-- Lazy scan for the closing `\x7d` of group 1: the accumulated group text
(reversed) is in `acc`; a `\x7d` closes the group exactly when the following
text is `\s*` and then three backticks. -/
def fenceBody (acc : Chars) : Chars → Option Chars
  | [] => none
  | c :: rest =>
    if c = '\x7d' ∧ chStarts ticks (dropWs rest) = true then
      some (List.reverse (c :: acc))
    else fenceBody (c :: acc) rest

/-- After the optional `json` marker: greedy `\s*` then the group must open
with `\x7b` (a brace is not whitespace, so no backtracking arises). -/
def fenceTryBrace (t : Chars) : Option Chars :=
  match dropWs t with
  | [] => none
  | c :: rest => if c = '\x7b' then fenceBody [c] rest else none

/-- Text immediately after an opening triple backtick: `(?:json)?` greedily
tries the `json` literal first and backtracks to the empty alternative. -/
def fenceAfterTicks (s : Chars) : Option Chars :=
  if chStarts (S "json") s = true then
    match fenceTryBrace (List.drop 4 s) with
    | some g => some g
    | none => fenceTryBrace s
  else fenceTryBrace s

/-- `re.search` of regex 1: leftmost start position wins; a failed start is
retried one character later. -/
def fenceSearch : Chars → Option Chars
  | [] => none
  | c :: rest =>
    if chStarts ticks (c :: rest) = true then
      match fenceAfterTicks (List.drop 3 (c :: rest)) with
      | some g => some g
      | none => fenceSearch rest
    else fenceSearch rest

/-!
### Model of regex 2 of `_parse_json_output` (crew.py line 140)

Pattern: an opening brace, then `[^{}]*` runs interleaved with complete
one-level groups (brace, non-braces, brace), closed by a brace.  Because
`[^{}]*` can only stop at a brace or at the end, the backtracking search
is equivalent to the following two-mode scanner: at top level a closing
brace ends the match and an opening brace enters an inner group; inside an
inner group an opening brace kills the whole attempt (the regex admits only
one nesting level) and a closing brace returns to top level.
-/
def braceScan (inner : Bool) (acc : Chars) : Chars → Option Chars
  | [] => none
  | c :: rest =>
    if c = '\x7d' then
      if inner then braceScan false (c :: acc) rest
      else some (List.reverse (c :: acc))
    else if c = '\x7b' then
      if inner then none else braceScan true (c :: acc) rest
    else braceScan inner (c :: acc) rest

/-- `re.search` of regex 2: only an opening brace can start a match. -/
def braceSearch : Chars → Option Chars
  | [] => none
  | c :: rest =>
    if c = '\x7b' then
      match braceScan false [c] rest with
      | some m => some m
      | none => braceSearch rest
    else braceSearch rest

/-!
### Model of `json.loads` / `json.dumps` (Python standard library boundary)

`_parse_json_output` and `OutreachCrew.run` use `json.loads` and
`json.dumps(..., indent=2)`.  These are standard-library collaborators, so
they are modelled: a strict JSON value type (number literals kept as their
lexemes), a fueled recursive-descent parser following the JSON grammar that
`json.loads` accepts — including the non-standard `NaN`, `Infinity` and
`-Infinity` constants Python's scanner accepts by default (checking them
before the minus-sign number branch is equivalent to Python's
number-regex-then-constants order, since the number regex fails exactly
where those constants match) — and an `indent=2` printer.  Python `dict` semantics
for duplicate keys (first position, last value) are modelled by
`dictInsert`.
-/

inductive Json where
  | null : Json
  | bool (b : Bool) : Json
  | num (lexeme : Chars) : Json
  | str (s : Chars) : Json
  | arr (items : List Json) : Json
  | obj (fields : List (Chars × Json)) : Json

/-- JSON insignificant whitespace (what Python's `json.loads` skips). -/
def isJsonWs (c : Char) : Bool :=
  c = ' ' || c = '\t' || c = '\n' || c = '\r'

def jskip : Chars → Chars
  | [] => []
  | c :: rest => if isJsonWs c then jskip rest else c :: rest

def isDigit (c : Char) : Bool := '0' ≤ c && c ≤ '9'

def takeDigits : Chars → (Chars × Chars)
  | [] => ([], [])
  | c :: rest =>
    if isDigit c then
      let p := takeDigits rest
      (c :: p.1, p.2)
    else ([], c :: rest)

/-- Duplicate-key insertion with Python `dict` semantics: the first
occurrence keeps its position, the value is the last one seen. -/
def dictInsert (fields : List (Chars × Json)) (k : Chars) (v : Json) : List (Chars × Json) :=
  match fields with
  | [] => [(k, v)]
  | (k2, v2) :: rest => if k2 = k then (k2, v) :: rest else (k2, v2) :: dictInsert rest k v

def dictLookup (fields : List (Chars × Json)) (k : Chars) : Option Json :=
  match fields with
  | [] => none
  | (k2, v2) :: rest => if k2 = k then some v2 else dictLookup rest k

def hexVal (c : Char) : Option Nat :=
  let n := c.toNat
  if 48 ≤ n ∧ n ≤ 57 then some (n - 48)
  else if 97 ≤ n ∧ n ≤ 102 then some (n - 87)
  else if 65 ≤ n ∧ n ≤ 70 then some (n - 55)
  else none

/-- The body of a JSON string after its opening quote (fueled; the escapes
of the JSON grammar, `\uXXXX` taken as a single code point). -/
def parseStrBody (fuel : Nat) (acc : Chars) (s : Chars) : Except Chars (Chars × Chars) :=
  match fuel with
  | 0 => .error (S "fuel exhausted")
  | fuel + 1 =>
    match s with
    | [] => .error (S "Unterminated string starting at")
    | c :: rest =>
      if c = '"' then .ok (List.reverse acc, rest)
      else if c = '\\' then
        match rest with
        | [] => .error (S "Unterminated string starting at")
        | e :: rest2 =>
          if e = '"' then parseStrBody fuel ('"' :: acc) rest2
          else if e = '\\' then parseStrBody fuel ('\\' :: acc) rest2
          else if e = '/' then parseStrBody fuel ('/' :: acc) rest2
          else if e = 'b' then parseStrBody fuel ('\x08' :: acc) rest2
          else if e = 'f' then parseStrBody fuel ('\x0c' :: acc) rest2
          else if e = 'n' then parseStrBody fuel ('\n' :: acc) rest2
          else if e = 'r' then parseStrBody fuel ('\r' :: acc) rest2
          else if e = 't' then parseStrBody fuel ('\t' :: acc) rest2
          else if e = 'u' then
            match rest2 with
            | h1 :: h2 :: h3 :: h4 :: rest3 =>
              match hexVal h1, hexVal h2, hexVal h3, hexVal h4 with
              | some a, some b, some c2, some d =>
                let n := 4096 * a + 256 * b + 16 * c2 + d
                if h : n.isValidChar then parseStrBody fuel (Char.ofNatAux n h :: acc) rest3
                else .error (S "Invalid \\uXXXX escape")
              | _, _, _, _ => .error (S "Invalid \\uXXXX escape")
            | _ => .error (S "Invalid \\uXXXX escape")
          else .error (S "Invalid \\escape")
      else if c.toNat < 32 then .error (S "Invalid control character")
      else parseStrBody fuel (c :: acc) rest

/-- A JSON number: max-munch of `-?(0|[1-9][0-9]*)(\.[0-9]+)?([eE][+-]?[0-9]+)?`,
kept as its lexeme.  `s` starts at the sign or first digit. -/
def parseNumber (s : Chars) : Except Chars (Json × Chars) :=
  let p := match s with
    | '-' :: rest => (['-'], rest)
    | _ => (([] : Chars), s)
  let intPart : Except Chars (Chars × Chars) :=
    match p.2 with
    | '0' :: rest => .ok (p.1 ++ ['0'], rest)
    | c :: rest =>
      if isDigit c then
        let d := takeDigits rest
        .ok (p.1 ++ c :: d.1, d.2)
      else .error (S "Expecting value")
    | [] => .error (S "Expecting value")
  match intPart with
  | .error m => .error m
  | .ok (lex, r1) =>
    let q : Chars × Chars :=
      match r1 with
      | '.' :: c :: rest =>
        if isDigit c then
          let d := takeDigits rest
          (lex ++ '.' :: c :: d.1, d.2)
        else (lex, r1)
      | _ => (lex, r1)
    let z : Chars × Chars :=
      match q.2 with
      | 'e' :: rest => expTail q.1 'e' rest
      | 'E' :: rest => expTail q.1 'E' rest
      | _ => q
    .ok (.num z.1, z.2)
where
  expTail (lex : Chars) (e : Char) (rest : Chars) : Chars × Chars :=
    match rest with
    | '+' :: c :: r => if isDigit c then let d := takeDigits r; (lex ++ [e, '+', c] ++ d.1, d.2) else (lex, e :: rest)
    | '-' :: c :: r => if isDigit c then let d := takeDigits r; (lex ++ [e, '-', c] ++ d.1, d.2) else (lex, e :: rest)
    | c :: r => if isDigit c then let d := takeDigits r; (lex ++ [e, c] ++ d.1, d.2) else (lex, e :: rest)
    | [] => (lex, e :: rest)

mutual

/-- One JSON value (with leading whitespace), returning the rest. -/
def parseVal (fuel : Nat) (s : Chars) : Except Chars (Json × Chars) :=
  match fuel with
  | 0 => .error (S "fuel exhausted")
  | fuel + 1 =>
    match jskip s with
    | [] => .error (S "Expecting value")
    | c :: rest =>
      if c = '\x7b' then parseObjTail fuel rest
      else if c = '[' then parseArrTail fuel rest
      else if c = '"' then
        match parseStrBody fuel [] rest with
        | .error m => .error m
        | .ok (t, r) => .ok (.str t, r)
      else if chStarts (S "true") (c :: rest) = true then .ok (.bool true, List.drop 4 (c :: rest))
      else if chStarts (S "false") (c :: rest) = true then .ok (.bool false, List.drop 5 (c :: rest))
      else if chStarts (S "null") (c :: rest) = true then .ok (.null, List.drop 4 (c :: rest))
      else if chStarts (S "NaN") (c :: rest) = true then .ok (.num (S "NaN"), List.drop 3 (c :: rest))
      else if chStarts (S "Infinity") (c :: rest) = true then
        .ok (.num (S "Infinity"), List.drop 8 (c :: rest))
      else if chStarts (S "-Infinity") (c :: rest) = true then
        .ok (.num (S "-Infinity"), List.drop 9 (c :: rest))
      else if c = '-' || isDigit c then parseNumber (c :: rest)
      else .error (S "Expecting value")

/-- After an opening brace: empty object or the member list. -/
def parseObjTail (fuel : Nat) (s : Chars) : Except Chars (Json × Chars) :=
  match fuel with
  | 0 => .error (S "fuel exhausted")
  | fuel + 1 =>
    match jskip s with
    | '\x7d' :: rest => .ok (.obj [], rest)
    | t => parseMembers fuel [] t

/-- `"key": value` members separated by commas, closed by a brace. -/
def parseMembers (fuel : Nat) (acc : List (Chars × Json)) (s : Chars) : Except Chars (Json × Chars) :=
  match fuel with
  | 0 => .error (S "fuel exhausted")
  | fuel + 1 =>
    match jskip s with
    | '"' :: rest =>
      match parseStrBody fuel [] rest with
      | .error m => .error m
      | .ok (key, r1) =>
        match jskip r1 with
        | ':' :: r2 =>
          match parseVal fuel r2 with
          | .error m => .error m
          | .ok (v, r3) =>
            let acc2 := dictInsert acc key v
            match jskip r3 with
            | ',' :: r4 => parseMembers fuel acc2 r4
            | '\x7d' :: r4 => .ok (.obj acc2, r4)
            | _ => .error (S "Expecting \x27,\x27 delimiter")
        | _ => .error (S "Expecting \x27:\x27 delimiter")
    | _ => .error (S "Expecting property name enclosed in double quotes")

/-- After an opening bracket: empty array or the item list. -/
def parseArrTail (fuel : Nat) (s : Chars) : Except Chars (Json × Chars) :=
  match fuel with
  | 0 => .error (S "fuel exhausted")
  | fuel + 1 =>
    match jskip s with
    | ']' :: rest => .ok (.arr [], rest)
    | t => parseItems fuel [] t

/-- Array items separated by commas, closed by a bracket. -/
def parseItems (fuel : Nat) (acc : List Json) (s : Chars) : Except Chars (Json × Chars) :=
  match fuel with
  | 0 => .error (S "fuel exhausted")
  | fuel + 1 =>
    match parseVal fuel s with
    | .error m => .error m
    | .ok (v, r1) =>
      match jskip r1 with
      | ',' :: r2 => parseItems fuel (acc ++ [v]) r2
      | ']' :: r2 => .ok (.arr (acc ++ [v]), r2)
      | _ => .error (S "Expecting \x27,\x27 delimiter")

end

/-- Model of `json.loads`: one value, then only trailing whitespace. -/
def json_loads (s : Chars) : Except Chars Json :=
  match parseVal (s.length + 1) s with
  | .error m => .error m
  | .ok (v, rest) =>
    match jskip rest with
    | [] => .ok v
    | _ => .error (S "Extra data")

/-- String escaping of `json.dumps` (the escapes relevant to this model:
quote, backslash and the short control escapes; other characters pass
through). -/
def jsonEscape : Chars → Chars
  | [] => []
  | c :: rest =>
    if c = '"' then '\\' :: '"' :: jsonEscape rest
    else if c = '\\' then '\\' :: '\\' :: jsonEscape rest
    else if c = '\n' then '\\' :: 'n' :: jsonEscape rest
    else if c = '\t' then '\\' :: 't' :: jsonEscape rest
    else if c = '\r' then '\\' :: 'r' :: jsonEscape rest
    else if c = '\x08' then '\\' :: 'b' :: jsonEscape rest
    else if c = '\x0c' then '\\' :: 'f' :: jsonEscape rest
    else c :: jsonEscape rest

def indentOf (level : Nat) : Chars := List.replicate (2 * level) ' '

mutual

/-- Model of `json.dumps(v, indent=2)` (fueled on nesting depth; the fuel
passed by `jsonDumps2` is far larger than any value of this pipeline). -/
def dumpsVal (fuel : Nat) (level : Nat) (j : Json) : Chars :=
  match fuel with
  | 0 => []
  | fuel + 1 =>
    match j with
    | .null => S "null"
    | .bool true => S "true"
    | .bool false => S "false"
    | .num lexeme => lexeme
    | .str s => '"' :: jsonEscape s ++ ['"']
    | .arr [] => S "[]"
    | .arr (x :: xs) =>
      S "[\n" ++ indentOf (level + 1) ++ dumpsVal fuel (level + 1) x ++
        dumpsItemsTail fuel (level + 1) xs ++ S "\n" ++ indentOf level ++ S "]"
    | .obj [] => S "\x7b\x7d"
    | .obj (f :: fs) =>
      S "\x7b\n" ++ indentOf (level + 1) ++ dumpsField fuel (level + 1) f ++
        dumpsFieldsTail fuel (level + 1) fs ++ S "\n" ++ indentOf level ++ S "\x7d"

def dumpsField (fuel : Nat) (level : Nat) (f : Chars × Json) : Chars :=
  match fuel with
  | 0 => []
  | fuel + 1 => '"' :: jsonEscape f.1 ++ S "\": " ++ dumpsVal fuel level f.2

def dumpsFieldsTail (fuel : Nat) (level : Nat) (fs : List (Chars × Json)) : Chars :=
  match fuel with
  | 0 => []
  | fuel + 1 =>
    match fs with
    | [] => []
    | f :: rest => S ",\n" ++ indentOf level ++ dumpsField fuel level f ++ dumpsFieldsTail fuel level rest

def dumpsItemsTail (fuel : Nat) (level : Nat) (xs : List Json) : Chars :=
  match fuel with
  | 0 => []
  | fuel + 1 =>
    match xs with
    | [] => []
    | x :: rest => S ",\n" ++ indentOf level ++ dumpsVal fuel level x ++ dumpsItemsTail fuel level rest

end

/-- Model of `json.dumps(v, indent=2)` as used by `OutreachCrew.run`. -/
def jsonDumps2 (j : Json) : Chars := dumpsVal 1000000 0 j

/-!
### `OutreachCrew._parse_json_output` (crew.py lines 115-148)
-/

/-- The `ValueError` raised by `_parse_json_output`: the stage name, the
`json.JSONDecodeError` message, and the first 200 characters of the
offending (post-extraction) text. -/
structure JsonParseError where
  stage : Chars
  message : Chars
  rawSnippet : Chars

/-- Model of `OutreachCrew._parse_json_output`: try the fenced-block regex,
then the bare-brace regex, then strict `json.loads`; a parse failure is a
`ValueError` carrying the stage and `raw_output[:200]`. -/
def parse_json_output (raw_output : Chars) (stage : Chars) : Except JsonParseError Json :=
  let t1 := match fenceSearch raw_output with
    | some g => g
    | none => raw_output
  let t2 := match braceSearch t1 with
    | some m => m
    | none => t1
  match json_loads t2 with
  | .ok v => .ok v
  | .error msg => .error ⟨stage, msg, List.take 200 t2⟩

/-!
### Pydantic schemas (schemas.py)

Pydantic (v2) validates a field's type and `Field` constraints first and
runs a `field_validator` (default mode, "after") on the already-validated
value; the value it returns is stored without re-checking the constraints.
`mkOutreachInput` models `OutreachInput` construction accordingly: length
bounds on the raw value, then `str.strip()`.
-/

inductive Tone where
  | professional
  | casual
  | founder
deriving DecidableEq

/-- Model of Python `str.strip()` (ASCII whitespace). -/
def pyStrip (s : Chars) : Chars :=
  List.reverse (List.dropWhile (fun c => isPyWs c) (List.reverse (List.dropWhile (fun c => isPyWs c) s)))

/-- Library-boundary model of pydantic's `HttpUrl` check: an http or https
scheme followed by a nonempty host.  (Pydantic's normalization of the URL
text is not modelled; `OutreachInput` keeps the accepted text.) -/
def isHttpUrl (url : Chars) : Bool :=
  (chStarts (S "http://") url && decide (7 < url.length)) ||
    (chStarts (S "https://") url && decide (8 < url.length))

/-- The validated `OutreachInput` (schemas.py lines 12-75). -/
structure OutreachInput where
  company_name : Chars
  company_website : Chars
  target_role : Chars
  product_description : Chars
  outreach_goal : Chars
  tone : Tone

def toneOfString (s : Chars) : Option Tone :=
  if s = S "professional" then some .professional
  else if s = S "casual" then some .casual
  else if s = S "founder" then some .founder
  else none

/-- Model of pydantic validation of `OutreachInput`: `Field` length bounds
are checked on the raw strings, the tone must be one of the three literals,
and only then does the `strip_whitespace` after-validator trim the four
plain string fields. -/
def mkOutreachInput (company_name company_website target_role product_description outreach_goal tone : Chars) :
    Except Chars OutreachInput :=
  if company_name.length < 1 ∨ 200 < company_name.length then
    .error (S "company_name: length must be between 1 and 200")
  else if isHttpUrl company_website = false then
    .error (S "company_website: Input should be a valid URL")
  else if target_role.length < 1 ∨ 100 < target_role.length then
    .error (S "target_role: length must be between 1 and 100")
  else if product_description.length < 10 ∨ 500 < product_description.length then
    .error (S "product_description: length must be between 10 and 500")
  else if outreach_goal.length < 5 ∨ 200 < outreach_goal.length then
    .error (S "outreach_goal: length must be between 5 and 200")
  else
    match toneOfString tone with
    | none => .error (S "tone: Input should be professional, casual or founder")
    | some t =>
      .ok { company_name := pyStrip company_name
            company_website := company_website
            target_role := pyStrip target_role
            product_description := pyStrip product_description
            outreach_goal := pyStrip outreach_goal
            tone := t }

/-- The validated `ResearchOutput` (schemas.py lines 123-137). -/
structure ResearchOutput where
  industry : Chars
  value_proposition : Chars
  personalization_hooks : List Chars
  company_summary : Chars

/-- The validated `CopyOutput` (schemas.py lines 140-145). -/
structure CopyOutput where
  subject_lines : List Chars
  primary_email : Chars
  follow_up_email : Chars

inductive RiskLevel where
  | low
  | medium
  | high
deriving DecidableEq

/-- The validated `QAOutput` (schemas.py lines 148-158). -/
structure QAOutput where
  spam_risk_score : RiskLevel
  risk_factors : List Chars
  analysis_notes : Chars

/-- The assembled `OutreachOutput` (schemas.py lines 78-120). -/
structure OutreachOutput where
  subject_lines : List Chars
  primary_email : Chars
  follow_up_email : Chars
  personalization_points : List Chars
  spam_risk_score : RiskLevel

def asStringList : List Json → Option (List Chars)
  | [] => some []
  | j :: rest =>
    match j with
    | .str s =>
      match asStringList rest with
      | some l => some (s :: l)
      | none => none
    | _ => none

def riskOfString (s : Chars) : Option RiskLevel :=
  if s = S "low" then some .low
  else if s = S "medium" then some .medium
  else if s = S "high" then some .high
  else none

/-- Model of `ResearchOutput(**research_output)`: the parsed JSON must be an
object; `industry`, `value_proposition` and `company_summary` must be
strings, `personalization_hooks` a list of 1 to 5 strings; extra keys are
ignored (pydantic default). -/
def validateResearchOutput (j : Json) : Except Chars ResearchOutput :=
  match j with
  | .obj fields =>
    match dictLookup fields (S "industry") with
    | some (.str industry) =>
      match dictLookup fields (S "value_proposition") with
      | some (.str value_proposition) =>
        match dictLookup fields (S "personalization_hooks") with
        | some (.arr items) =>
          match asStringList items with
          | some hooks =>
            if hooks.length < 1 then
              .error (S "personalization_hooks: List should have at least 1 item")
            else if 5 < hooks.length then
              .error (S "personalization_hooks: List should have at most 5 items")
            else
              match dictLookup fields (S "company_summary") with
              | some (.str company_summary) =>
                .ok ⟨industry, value_proposition, hooks, company_summary⟩
              | some _ => .error (S "company_summary: Input should be a valid string")
              | none => .error (S "company_summary: Field required")
          | none => .error (S "personalization_hooks: items should be valid strings")
        | some _ => .error (S "personalization_hooks: Input should be a valid list")
        | none => .error (S "personalization_hooks: Field required")
      | some _ => .error (S "value_proposition: Input should be a valid string")
      | none => .error (S "value_proposition: Field required")
    | some _ => .error (S "industry: Input should be a valid string")
    | none => .error (S "industry: Field required")
  | _ => .error (S "Input should be a valid dictionary")

/-- Model of `CopyOutput(**copy_output)`: `subject_lines` a list of strings
with `min_length=3, max_length=3`, `primary_email` and `follow_up_email`
strings; extra keys are ignored. -/
def validateCopyOutput (j : Json) : Except Chars CopyOutput :=
  match j with
  | .obj fields =>
    match dictLookup fields (S "subject_lines") with
    | some (.arr items) =>
      match asStringList items with
      | some subject_lines =>
        if subject_lines.length < 3 then
          .error (S "subject_lines: List should have at least 3 items")
        else if 3 < subject_lines.length then
          .error (S "subject_lines: List should have at most 3 items")
        else
          match dictLookup fields (S "primary_email") with
          | some (.str primary_email) =>
            match dictLookup fields (S "follow_up_email") with
            | some (.str follow_up_email) =>
              .ok ⟨subject_lines, primary_email, follow_up_email⟩
            | some _ => .error (S "follow_up_email: Input should be a valid string")
            | none => .error (S "follow_up_email: Field required")
          | some _ => .error (S "primary_email: Input should be a valid string")
          | none => .error (S "primary_email: Field required")
      | none => .error (S "subject_lines: items should be valid strings")
    | some _ => .error (S "subject_lines: Input should be a valid list")
    | none => .error (S "subject_lines: Field required")
  | _ => .error (S "Input should be a valid dictionary")

/-- Model of `QAOutput(**qa_output)`: `spam_risk_score` must be one of the
three literals; `risk_factors` defaults to the empty list and
`analysis_notes` to the empty string. -/
def validateQAOutput (j : Json) : Except Chars QAOutput :=
  match j with
  | .obj fields =>
    match dictLookup fields (S "spam_risk_score") with
    | some (.str s) =>
      match riskOfString s with
      | some spam_risk_score =>
        match dictLookup fields (S "risk_factors") with
        | none => withNotes fields spam_risk_score []
        | some (.arr items) =>
          match asStringList items with
          | some risk_factors => withNotes fields spam_risk_score risk_factors
          | none => .error (S "risk_factors: items should be valid strings")
        | some _ => .error (S "risk_factors: Input should be a valid list")
      | none => .error (S "spam_risk_score: Input should be low, medium or high")
    | some _ => .error (S "spam_risk_score: Input should be a valid string")
    | none => .error (S "spam_risk_score: Field required")
  | _ => .error (S "Input should be a valid dictionary")
where
  withNotes (fields : List (Chars × Json)) (score : RiskLevel) (risk_factors : List Chars) :
      Except Chars QAOutput :=
    match dictLookup fields (S "analysis_notes") with
    | none => .ok ⟨score, risk_factors, []⟩
    | some (.str analysis_notes) => .ok ⟨score, risk_factors, analysis_notes⟩
    | some _ => .error (S "analysis_notes: Input should be a valid string")

/-!
### `WebScraper` (app/utils/web_scraper.py)

`BeautifulSoup` parsing and `get_text` are library collaborators; the text
they return is the input of the repository logic modelled here: whitespace
collapsing (`re.sub(r'\s+', ' ', text)`) and the length cap.  The HTTP
layer (`httpx`) is a second library collaborator, modelled by an explicit
outcome of the `try` body.
-/

def MAX_CONTENT_LENGTH : Nat := 10000

/-- Model of `re.sub(r'\s+', ' ', text)`: every maximal whitespace run is
replaced with a single space.  The Boolean remembers whether the previous
character was part of a whitespace run. -/
def collapseWsAux (prevWs : Bool) : Chars → Chars
  | [] => []
  | c :: rest =>
    if isPyWs c then
      if prevWs then collapseWsAux true rest
      else ' ' :: collapseWsAux true rest
    else c :: collapseWsAux false rest

def collapseWs (s : Chars) : Chars := collapseWsAux false s

/-- Model of `WebScraper._extract_text` from the point where the repository
logic starts (the text produced by `soup.get_text` after the removal of
script/style/nav/footer/header/aside subtrees): collapse whitespace, then
cut to `MAX_CONTENT_LENGTH` characters and append `"..."` if cut. -/
def extract_text (text : Chars) : Chars :=
  let t := collapseWs text
  if MAX_CONTENT_LENGTH < t.length then List.take MAX_CONTENT_LENGTH t ++ S "..." else t

/-- `ScraperError` (web_scraper.py lines 87-94). -/
structure ScraperErr where
  message : Chars

/-- The two exception classes that the `try` body of `fetch_page` can
raise: `httpx.HTTPError` (network failure, timeout, or `raise_for_status`
on a non-2xx response) and any other `Exception`. -/
inductive PyExc where
  | httpError (msg : Chars)
  | otherExc (msg : Chars)

/-- Model of `WebScraper.fetch_page`.  `getText` is the library-boundary
`soup.get_text` step of `_extract_text`; `httpResult` is the outcome of the
`httpx` GET (response text, or the exception it raised). -/
def fetch_page (getText : Chars → Chars) (url : Chars) (httpResult : Except PyExc Chars) :
    Except ScraperErr Chars :=
  match httpResult with
  | .ok html => .ok (extract_text (getText html))
  | .error (.httpError m) => .error ⟨S "Failed to fetch " ++ url ++ S ": " ++ m⟩
  | .error (.otherExc m) => .error ⟨S "Unexpected error scraping " ++ url ++ S ": " ++ m⟩

/-!
### The three stage functions (app/agents/*.py)

Each stage builds one prompt and hands it to `llm_router.generate(task,
prompt)`; the provider's raw text is returned unmodified.  The generation
port is modelled as an explicit function parameter of the orchestrator, and
the orchestrator records every port invocation (task label and prompt) in a
trace.
-/

inductive StageLabel where
  | research
  | copy
  | qa
deriving DecidableEq

/-- `TONE_GUIDELINES` (copy_agent.py lines 18-22); `run_copy` reads it with
`.get(tone, professional)`, a fallback that is unreachable because the tone
is already restricted to the three literals by `OutreachInput`. -/
def TONE_GUIDELINES (t : Tone) : Chars :=
  match t with
  | .professional => S "Formal, respectful, business-appropriate. Use proper titles."
  | .casual => S "Friendly but not unprofessional. First-name basis. Conversational."
  | .founder => S "Direct, founder-to-founder. Mention building/shipping. No fluff."

def toneText (t : Tone) : Chars :=
  match t with
  | .professional => S "professional"
  | .casual => S "casual"
  | .founder => S "founder"

/-- The prompt of `run_research` (research_agent.py lines 33-61). -/
def researchPrompt (company_name website_content target_role : Chars) : Chars :=
  S "Analyze the following company information and extract key details.\n\nCOMPANY: " ++
  company_name ++
  S "\nTARGET RECIPIENT ROLE: " ++ target_role ++
  S "\n\nWEBSITE CONTENT:\n" ++ website_content ++
  S "\n\nYOUR TASK:\n1. Identify the company\x27s industry/sector\n2. Extract their main value proposition (what they offer and why it matters)\n3. Find 3-5 personalization hooks - specific facts that could be referenced in a cold email\n4. Write a brief 2-3 sentence company summary\n\nRULES:\n- Only state facts found in the content\n- No assumptions or opinions\n- Personalization hooks must be specific and verifiable\n- Focus on details relevant to the target role: " ++
  target_role ++
  S "\n\nOUTPUT FORMAT (JSON only, no markdown):\n\x7b\n    \"industry\": \"string\",\n    \"value_proposition\": \"string\",\n    \"personalization_hooks\": [\"string\", \"string\", ...],\n    \"company_summary\": \"string\"\n\x7d\n\nReturn ONLY the JSON object, nothing else."

/-- The prompt of `run_copy` (copy_agent.py lines 52-98); `research_output`
is the serialized research data interpolated into the RESEARCH DATA
section. -/
def copyPrompt (company_name target_role product_description outreach_goal : Chars)
    (tone : Tone) (research_output : Chars) : Chars :=
  S "Write cold outreach emails based on the research provided.\n\nCONTEXT:\n- Company: " ++
  company_name ++
  S "\n- Recipient Role: " ++ target_role ++
  S "\n- Your Product: " ++ product_description ++
  S "\n- Goal: " ++ outreach_goal ++
  S "\n- Tone: " ++ toneText tone ++ S " - " ++ TONE_GUIDELINES tone ++
  S "\n\nRESEARCH DATA:\n" ++ research_output ++
  S "\n\nDELIVERABLES:\n\n1. THREE SUBJECT LINES\n   - Under 50 characters each\n   - No clickbait\n   - Reference company or role when possible\n\n2. PRIMARY EMAIL\n   - Maximum 120 words\n   - Open with personalization from research\n   - Connect their situation to your product\n   - End with clear CTA related to: " ++
  outreach_goal ++
  S "\n   \n3. FOLLOW-UP EMAIL\n   - Maximum 120 words\n   - Reference the first email\n   - Add new value or angle\n   - Slightly softer CTA\n\nSTRICT RULES:\n- ZERO emojis\n- ZERO exclamation marks\n- No \"I hope this email finds you well\"\n- No \"Just following up\"\n- No \"Reaching out because\"\n- Last sentence MUST be the call-to-action\n\nOUTPUT FORMAT (JSON only, no markdown):\n\x7b\n    \"subject_lines\": [\"line1\", \"line2\", \"line3\"],\n    \"primary_email\": \"string\",\n    \"follow_up_email\": \"string\"\n\x7d\n\nReturn ONLY the JSON object, nothing else."

/-- The prompt of `run_qa` (qa_agent.py lines 30-83); `copy_output` is the
serialized copy data interpolated into the EMAILS TO ANALYZE section. -/
def qaPrompt (copy_output : Chars) : Chars :=
  S "Analyze the following cold emails for spam risk.\n\nEMAILS TO ANALYZE:\n" ++ copy_output ++
  S "\n\nSPAM RISK SIGNALS TO CHECK:\n\n1. SALES PHRASE OVERUSE (check for):\n   - \"Revolutionary\", \"Game-changing\", \"Best-in-class\"\n   - \"Act now\", \"Limited time\", \"Don\x27t miss out\"\n   - \"Guaranteed\", \"Risk-free\", \"No obligation\"\n   - Multiple value claims without proof\n\n2. URGENCY SIGNALS (check for):\n   - Artificial deadlines\n   - Pressure tactics\n   - FOMO language\n   - Multiple CTAs\n\n3. PERSONALIZATION QUALITY (check for):\n   - Generic compliments (\"I love what you\x27re doing\")\n   - Name-only personalization\n   - Obvious template language\n   - Mismatched tone\n\n4. FORMAT ISSUES (check for):\n   - ALL CAPS words\n   - Emojis present\n   - Exclamation marks present\n   - Excessive length\n\nSCORING CRITERIA:\n- LOW: 0-1 minor issues, emails feel genuine and targeted\n- MEDIUM: 2-3 issues, some templated feel but acceptable\n- HIGH: 4+ issues, likely to trigger spam filters or annoy recipient\n\nYOUR TASK:\n1. Count and list all risk factors found\n2. Assign a spam_risk_score: \"low\", \"medium\", or \"high\"\n3. Write brief analysis notes\n\nDO NOT:\n- Suggest rewrites\n- Give opinions on content quality\n- Change any email text\n\nOUTPUT FORMAT (JSON only, no markdown):\n\x7b\n    \"spam_risk_score\": \"low\" | \"medium\" | \"high\",\n    \"risk_factors\": [\"factor1\", \"factor2\", ...],\n    \"analysis_notes\": \"string\"\n\x7d\n\nReturn ONLY the JSON object, nothing else."

/-!
### `OutreachCrew.run` (crew.py lines 37-113)

`fetchResult` is the outcome of `self.scraper.fetch_page` (its HTTP layer
being outside the orchestrator), and `gen` is the generation port
(`llm_router.generate`), a function of task label and prompt.  The second
component of the result is the trace of port invocations in order, which is
empty exactly when no generation call was made.  Errors mirror the Python
exceptions: `ScraperError`, the `ValueError` of `_parse_json_output`, and
pydantic `ValidationError`.
-/

inductive RunError where
  | scraper (e : ScraperErr)
  | parse (e : JsonParseError)
  | validation (stage : Chars) (msg : Chars)

/-- Model of `OutreachCrew.run`: fetch, then three
generate/parse/validate rounds, each aborting the run on failure; the copy
stage receives `json.dumps(research_output, indent=2)` of the parsed (and
successfully validated) research object, the QA stage receives
`json.dumps(copy_output, indent=2)` of the parsed copy object. -/
def runPipeline (input_data : OutreachInput) (fetchResult : Except ScraperErr Chars)
    (gen : StageLabel → Chars → Chars) :
    Except RunError OutreachOutput × List (StageLabel × Chars) :=
  match fetchResult with
  | .error e => (.error (.scraper e), [])
  | .ok website_content =>
    let rPrompt := researchPrompt input_data.company_name website_content input_data.target_role
    let rRaw := gen .research rPrompt
    let tr1 := [(StageLabel.research, rPrompt)]
    match parse_json_output rRaw (S "research") with
    | .error e => (.error (.parse e), tr1)
    | .ok research_output =>
      match validateResearchOutput research_output with
      | .error m => (.error (.validation (S "research") m), tr1)
      | .ok research_validated =>
        let cPrompt := copyPrompt input_data.company_name input_data.target_role
          input_data.product_description input_data.outreach_goal input_data.tone
          (jsonDumps2 research_output)
        let cRaw := gen .copy cPrompt
        let tr2 := tr1 ++ [(StageLabel.copy, cPrompt)]
        match parse_json_output cRaw (S "copy") with
        | .error e => (.error (.parse e), tr2)
        | .ok copy_output =>
          match validateCopyOutput copy_output with
          | .error m => (.error (.validation (S "copy") m), tr2)
          | .ok copy_validated =>
            let qPrompt := qaPrompt (jsonDumps2 copy_output)
            let qRaw := gen .qa qPrompt
            let tr3 := tr2 ++ [(StageLabel.qa, qPrompt)]
            match parse_json_output qRaw (S "qa") with
            | .error e => (.error (.parse e), tr3)
            | .ok qa_output =>
              match validateQAOutput qa_output with
              | .error m => (.error (.validation (S "qa") m), tr3)
              | .ok qa_validated =>
                (.ok { subject_lines := copy_validated.subject_lines
                       primary_email := copy_validated.primary_email
                       follow_up_email := copy_validated.follow_up_email
                       personalization_points := research_validated.personalization_hooks
                       spam_risk_score := qa_validated.spam_risk_score }, tr3)

/-!
### Lemmas about the scanners
-/

theorem chStarts_append_self (p x : Chars) : chStarts p (p ++ x) = true := by
  induction p with
  | nil => rfl
  | cons a as ih => simp [chStarts, ih]

theorem dropWs_append (w s : Chars) (hw : ∀ c ∈ w, isPyWs c = true) :
    dropWs (w ++ s) = dropWs s := by
  induction w with
  | nil => rfl
  | cons c cs ih =>
    have hc := hw c (by simp)
    simp only [List.cons_append, dropWs, hc, if_true]
    exact ih (fun x hx => hw x (by simp [hx]))

theorem dropWs_cons_not (c : Char) (s : Chars) (hc : isPyWs c = false) :
    dropWs (c :: s) = c :: s := by
  simp [dropWs, hc]

/-- The first character surviving `dropWs` in `t ++ brace :: X` comes from
`t` or is the brace, so it is not a backtick when `t` has none. -/
theorem dropWs_no_tick_start (t : Chars) (ht : ∀ x ∈ t, x ≠ '\x60') (X : Chars) :
    chStarts ticks (dropWs (t ++ '\x7d' :: X)) = false := by
  induction t with
  | nil =>
    rw [List.nil_append, dropWs_cons_not _ _ (by decide)]
    simp [chStarts, ticks]
  | cons c cs ih =>
    by_cases hc : isPyWs c = true
    · simp only [List.cons_append, dropWs, hc, if_true]
      exact ih (fun x hx => ht x (by simp [hx]))
    · rw [List.cons_append, dropWs_cons_not _ _ (by simpa using hc)]
      have hcc : ¬('\x60' = c) := fun h => ht c (by simp) h.symm
      simp [chStarts, ticks, hcc]

/-- One-level brace content: the inner text of a brace span whose nested
braces go at most one level deep (the only shape the second regex of
`_parse_json_output` tolerates). -/
inductive B1 : Chars → Prop where
  | nil : B1 []
  | ch {c : Char} {t : Chars} (h1 : c ≠ '\x7b') (h2 : c ≠ '\x7d') (ht : B1 t) : B1 (c :: t)
  | grp {v t : Chars} (hv : ∀ x ∈ v, x ≠ '\x7b' ∧ x ≠ '\x7d') (ht : B1 t) :
      B1 ('\x7b' :: v ++ '\x7d' :: t)

theorem B1_of_no_braces (t : Chars) (h : ∀ x ∈ t, x ≠ '\x7b' ∧ x ≠ '\x7d') : B1 t := by
  induction t with
  | nil => exact B1.nil
  | cons c cs ih =>
    have hc := h c (by simp)
    exact B1.ch hc.1 hc.2 (ih (fun x hx => h x (by simp [hx])))

theorem braceScan_inner (v : Chars) (hv : ∀ x ∈ v, x ≠ '\x7b' ∧ x ≠ '\x7d')
    (acc t : Chars) :
    braceScan true acc (v ++ '\x7d' :: t) =
      braceScan false ('\x7d' :: (List.reverse v ++ acc)) t := by
  induction v generalizing acc with
  | nil => simp [braceScan]
  | cons c cs ih =>
    have hc := hv c (by simp)
    simp only [List.cons_append, braceScan, hc.1, hc.2, if_false, if_neg, List.append_eq]
    rw [ih (fun x hx => hv x (by simp [hx])) (c :: acc)]
    simp [List.append_assoc]

theorem braceScan_top {content : Chars} (h : B1 content) (t : Chars) :
    ∀ acc, braceScan false acc (content ++ '\x7d' :: t) =
      some (List.reverse acc ++ content ++ ['\x7d']) := by
  induction h with
  | nil => intro acc; simp [braceScan]
  | @ch c t2 h1 h2 ht ih =>
    intro acc
    simp only [List.cons_append, braceScan, h1, h2, if_false, if_neg, List.append_eq]
    rw [ih (c :: acc)]
    simp [List.append_assoc]
  | @grp v t2 hv ht ih =>
    intro acc
    have hsplit : ('\x7b' :: v ++ '\x7d' :: t2) ++ '\x7d' :: t =
        '\x7b' :: (v ++ '\x7d' :: (t2 ++ '\x7d' :: t)) := by simp
    rw [hsplit]
    show braceScan false acc ('\x7b' :: (v ++ '\x7d' :: (t2 ++ '\x7d' :: t))) = _
    simp only [braceScan, if_neg, if_false]
    rw [braceScan_inner v hv ('\x7b' :: acc)]
    rw [ih]
    simp [List.append_assoc]

theorem fenceBody_skip (v : Chars) (hv : ∀ x ∈ v, x ≠ '\x7d') (acc X : Chars) :
    fenceBody acc (v ++ X) = fenceBody (List.reverse v ++ acc) X := by
  induction v generalizing acc with
  | nil => rfl
  | cons c cs ih =>
    have hc := hv c (by simp)
    simp only [List.cons_append, fenceBody, List.append_eq]
    rw [if_neg (fun h => hc h.1)]
    rw [ih (fun x hx => hv x (by simp [hx])) (c :: acc)]
    simp [List.append_assoc]

theorem fenceBody_top {content : Chars} (h : B1 content)
    (hbt : ∀ x ∈ content, x ≠ '\x60') (wsB post : Chars)
    (hws : ∀ c ∈ wsB, isPyWs c = true) :
    ∀ acc, fenceBody acc (content ++ '\x7d' :: (wsB ++ (ticks ++ post))) =
      some (List.reverse acc ++ content ++ ['\x7d']) := by
  induction h with
  | nil =>
    intro acc
    have hclose : chStarts ticks (dropWs (wsB ++ (ticks ++ post))) = true := by
      rw [dropWs_append _ _ hws]
      rw [show ticks ++ post = '\x60' :: ('\x60' :: '\x60' :: post) from rfl]
      rw [dropWs_cons_not _ _ (by decide)]
      exact chStarts_append_self ticks post
    simp [fenceBody, hclose]
  | @ch c t2 h1 h2 ht ih =>
    intro acc
    simp only [List.cons_append, fenceBody, List.append_eq]
    rw [if_neg (fun hh => h2 hh.1)]
    rw [ih (fun x hx => hbt x (by simp [hx])) (c :: acc)]
    simp [List.append_assoc]
  | @grp v t2 hv ht ih =>
    intro acc
    have hsplit : ('\x7b' :: v ++ '\x7d' :: t2) ++ '\x7d' :: (wsB ++ (ticks ++ post)) =
        '\x7b' :: (v ++ ('\x7d' :: (t2 ++ '\x7d' :: (wsB ++ (ticks ++ post))))) := by simp
    rw [hsplit]
    show fenceBody acc ('\x7b' :: (v ++ '\x7d' :: (t2 ++ '\x7d' :: (wsB ++ (ticks ++ post))))) = _
    simp only [fenceBody]
    rw [if_neg (fun hh => (by decide : ('\x7b' : Char) ≠ '\x7d') hh.1)]
    rw [fenceBody_skip v (fun x hx => (hv x hx).2) ('\x7b' :: acc)]
    show fenceBody (v.reverse ++ '\x7b' :: acc) ('\x7d' :: (t2 ++ '\x7d' :: (wsB ++ (ticks ++ post)))) = _
    simp only [fenceBody]
    have hnt : chStarts ticks (dropWs (t2 ++ '\x7d' :: (wsB ++ (ticks ++ post)))) = false := by
      refine dropWs_no_tick_start t2 (fun x hx => hbt x ?_) _
      simp [hx]
    rw [if_neg (fun hh => by rw [hnt] at hh; exact Bool.false_ne_true hh.2)]
    rw [ih (fun x hx => hbt x (by simp [hx])) ('\x7d' :: (v.reverse ++ '\x7b' :: acc))]
    simp [List.append_assoc]

theorem fenceSearch_pre (pre X : Chars) (hpre : ∀ x ∈ pre, x ≠ '\x60') :
    fenceSearch (pre ++ X) = fenceSearch X := by
  induction pre with
  | nil => rfl
  | cons c p ih =>
    have hc : chStarts ticks (c :: (p ++ X)) = false := by
      have hcc : ¬('\x60' = c) := fun h => hpre c (by simp) h.symm
      simp [chStarts, ticks, hcc]
    simp only [List.cons_append, List.append_eq, fenceSearch, hc, Bool.false_eq_true, if_false]
    exact ih (fun x hx => hpre x (by simp [hx]))

theorem braceSearch_pre (pre X : Chars) (hpre : ∀ x ∈ pre, x ≠ '\x7b') :
    braceSearch (pre ++ X) = braceSearch X := by
  induction pre with
  | nil => rfl
  | cons c p ih =>
    have hc := hpre c (by simp)
    simp only [List.cons_append, braceSearch, hc, if_false, if_neg]
    exact ih (fun x hx => hpre x (by simp [hx]))

/-- On a full one-level brace span, the second regex matches the whole
span. -/
theorem braceSearch_body {content : Chars} (h : B1 content) (post : Chars) :
    braceSearch (('\x7b' :: content ++ ['\x7d']) ++ post) =
      some ('\x7b' :: content ++ ['\x7d']) := by
  have hsplit : (('\x7b' :: content ++ ['\x7d']) ++ post) =
      '\x7b' :: (content ++ '\x7d' :: post) := by simp
  rw [hsplit]
  show braceSearch ('\x7b' :: (content ++ '\x7d' :: post)) = _
  simp only [braceSearch, if_pos rfl]
  rw [braceScan_top h post ['\x7b']]
  simp

theorem fenceTryBrace_none (s : Chars) (h : ∀ x ∈ s, x ≠ '\x7b') :
    fenceTryBrace s = none := by
  induction s with
  | nil => rfl
  | cons c rest ih =>
    by_cases hc : isPyWs c = true
    · show (match dropWs (c :: rest) with
        | [] => none
        | c :: rest => if c = '\x7b' then fenceBody [c] rest else none) = none
      rw [show dropWs (c :: rest) = dropWs rest by simp [dropWs, hc]]
      exact ih (fun x hx => h x (by simp [hx]))
    · show (match dropWs (c :: rest) with
        | [] => none
        | c :: rest => if c = '\x7b' then fenceBody [c] rest else none) = none
      rw [dropWs_cons_not _ _ (by simpa using hc)]
      simp [h c (by simp)]

theorem fenceAfterTicks_none (s : Chars) (h : ∀ x ∈ s, x ≠ '\x7b') :
    fenceAfterTicks s = none := by
  unfold fenceAfterTicks
  have h4 : fenceTryBrace (List.drop 4 s) = none :=
    fenceTryBrace_none _ (fun x hx => h x (List.drop_subset 4 s hx))
  have hs : fenceTryBrace s = none := fenceTryBrace_none s h
  by_cases hj : chStarts (S "json") s = true
  · simp [hj, h4, hs]
  · simp [hj, hs]

theorem fenceSearch_none (s : Chars) (h : ∀ x ∈ s, x ≠ '\x7b') :
    fenceSearch s = none := by
  induction s with
  | nil => rfl
  | cons c rest ih =>
    have hrec := ih (fun x hx => h x (by simp [hx]))
    by_cases ht : chStarts ticks (c :: rest) = true
    · have hat : fenceAfterTicks (List.drop 3 (c :: rest)) = none :=
        fenceAfterTicks_none _ (fun x hx => h x (List.drop_subset 3 (c :: rest) hx))
      simp only [fenceSearch, ht, if_true, hat, hrec]
    · simp only [fenceSearch, ht]
      simp only [Bool.false_eq_true, if_false] at *
      exact hrec

theorem braceSearch_none (s : Chars) (h : ∀ x ∈ s, x ≠ '\x7b') :
    braceSearch s = none := by
  induction s with
  | nil => rfl
  | cons c rest ih =>
    have hc := h c (by simp)
    simp only [braceSearch, hc, if_false, if_neg]
    exact ih (fun x hx => h x (by simp [hx]))

theorem isPyWs_cases (c : Char) (h : isPyWs c = true) :
    c = ' ' ∨ c = '\t' ∨ c = '\n' ∨ c = '\r' ∨ c = '\x0b' ∨ c = '\x0c' := by
  simpa [isPyWs, or_assoc] using h

theorem chStarts_json_ws_brace (wsA R : Chars) (hws : ∀ c ∈ wsA, isPyWs c = true) :
    chStarts (S "json") (wsA ++ '\x7b' :: R) = false := by
  rw [show S "json" = 'j' :: 's' :: 'o' :: 'n' :: [] from rfl]
  cases wsA with
  | nil => simp [chStarts]
  | cons c w =>
    have hcj : ¬('j' = c) := by
      rcases isPyWs_cases c (hws c (by simp)) with h|h|h|h|h|h <;> subst h <;> decide
    simp [chStarts, hcj]

theorem fenceTryBrace_body {content : Chars} (hc : B1 content)
    (hbt : ∀ x ∈ content, x ≠ '\x60') (wsA wsB post : Chars)
    (hwsA : ∀ c ∈ wsA, isPyWs c = true) (hwsB : ∀ c ∈ wsB, isPyWs c = true) :
    fenceTryBrace (wsA ++ '\x7b' :: (content ++ '\x7d' :: (wsB ++ (ticks ++ post)))) =
      some ('\x7b' :: content ++ ['\x7d']) := by
  unfold fenceTryBrace
  rw [dropWs_append _ _ hwsA, dropWs_cons_not _ _ (by decide)]
  simp only [if_pos rfl, if_true]
  rw [fenceBody_top hc hbt wsB post hwsB ['\x7b']]
  simp

theorem fenceAfterTicks_body {content : Chars} (hc : B1 content)
    (hbt : ∀ x ∈ content, x ≠ '\x60') (tag wsA wsB post : Chars)
    (htag : tag = S "json" ∨ tag = [])
    (hwsA : ∀ c ∈ wsA, isPyWs c = true) (hwsB : ∀ c ∈ wsB, isPyWs c = true) :
    fenceAfterTicks (tag ++ (wsA ++ '\x7b' :: (content ++ '\x7d' :: (wsB ++ (ticks ++ post))))) =
      some ('\x7b' :: content ++ ['\x7d']) := by
  rcases htag with h | h <;> subst h
  · unfold fenceAfterTicks
    rw [if_pos (chStarts_append_self (S "json") _)]
    rw [show List.drop 4 (S "json" ++ (wsA ++ '\x7b' :: (content ++ '\x7d' :: (wsB ++ (ticks ++ post))))) =
        wsA ++ '\x7b' :: (content ++ '\x7d' :: (wsB ++ (ticks ++ post))) from rfl]
    rw [fenceTryBrace_body hc hbt wsA wsB post hwsA hwsB]
  · unfold fenceAfterTicks
    rw [List.nil_append, if_neg (by rw [chStarts_json_ws_brace wsA _ hwsA]; exact Bool.false_ne_true)]
    exact fenceTryBrace_body hc hbt wsA wsB post hwsA hwsB

theorem fenceSearch_fenced {content : Chars} (hc : B1 content)
    (hbt : ∀ x ∈ content, x ≠ '\x60') (pre tag wsA wsB post : Chars)
    (hpre : ∀ x ∈ pre, x ≠ '\x60')
    (htag : tag = S "json" ∨ tag = [])
    (hwsA : ∀ c ∈ wsA, isPyWs c = true) (hwsB : ∀ c ∈ wsB, isPyWs c = true) :
    fenceSearch (pre ++ (ticks ++ (tag ++ (wsA ++ '\x7b' ::
        (content ++ '\x7d' :: (wsB ++ (ticks ++ post))))))) =
      some ('\x7b' :: content ++ ['\x7d']) := by
  rw [fenceSearch_pre pre _ hpre]
  rw [show ticks ++ (tag ++ (wsA ++ '\x7b' :: (content ++ '\x7d' :: (wsB ++ (ticks ++ post))))) =
      '\x60' :: ('\x60' :: '\x60' :: (tag ++ (wsA ++ '\x7b' ::
        (content ++ '\x7d' :: (wsB ++ (ticks ++ post)))))) from rfl]
  simp only [fenceSearch]
  rw [if_pos (by exact chStarts_append_self ticks _)]
  rw [show List.drop 3 ('\x60' :: ('\x60' :: '\x60' :: (tag ++ (wsA ++ '\x7b' ::
      (content ++ '\x7d' :: (wsB ++ (ticks ++ post))))))) =
      tag ++ (wsA ++ '\x7b' :: (content ++ '\x7d' :: (wsB ++ (ticks ++ post)))) from rfl]
  rw [fenceAfterTicks_body hc hbt tag wsA wsB post htag hwsA hwsB]

/-- The top-level key list of a JSON object (used to tell two parse results
apart). -/
def topKeys : Json → List Chars
  | .obj fields => fields.map Prod.fst
  | _ => []

/-- C1 (amended): for every raw provider text that wraps a single JSON
object in a fenced code block (optionally marked as JSON), with commentary
before and after the fence, the extraction step of `_parse_json_output`
recovers exactly the object encoded inside the fence — provided the
object's braces nest at most one level and neither the object text nor the
commentary before the fence contains a backtick. -/
theorem c1_fenced_extraction (pre tag wsA content wsB post stage : Chars) (v : Json)
    (hpre : ∀ x ∈ pre, x ≠ '\x60')
    (htag : tag = S "json" ∨ tag = [])
    (hwsA : ∀ c ∈ wsA, isPyWs c = true)
    (hwsB : ∀ c ∈ wsB, isPyWs c = true)
    (hc : B1 content)
    (hbt : ∀ x ∈ content, x ≠ '\x60')
    (hload : json_loads ('\x7b' :: content ++ ['\x7d']) = .ok v) :
    parse_json_output
      (pre ++ (ticks ++ (tag ++ (wsA ++ '\x7b' :: (content ++ '\x7d' :: (wsB ++ (ticks ++ post)))))))
      stage = .ok v := by
  have h1 := fenceSearch_fenced hc hbt pre tag wsA wsB post hpre htag hwsA hwsB
  have h2 : braceSearch ('\x7b' :: content ++ ['\x7d']) = some ('\x7b' :: content ++ ['\x7d']) := by
    have h3 := braceSearch_body hc []
    simpa using h3
  simp only [parse_json_output, h1, h2, hload]

/-- C1 witness: a concrete commented fenced block around `\x7b\x7d` is
extracted to the empty object. -/
theorem c1_fenced_extraction_witness :
    parse_json_output
      (S "Here it is: " ++ (ticks ++ (S "json" ++ ([' '] ++ '\x7b' ::
        (([] : Chars) ++ '\x7d' :: ([' '] ++ (ticks ++ S " thanks"))))))) (S "research") =
      .ok (.obj []) :=
  c1_fenced_extraction (S "Here it is: ") (S "json") [' '] [] [' '] (S " thanks") (S "research")
    (.obj []) (by decide) (Or.inl rfl) (by decide) (by decide) B1.nil (by decide) rfl

/-- C1 counterexample: a fenced object whose braces nest two levels deep is
not recovered; the second regex of `_parse_json_output` cuts it down to an
inner sub-object, so the parsed result differs from the object encoded in
the fence (their top-level key lists differ). -/
theorem c1_fenced_extraction_counterexample :
    parse_json_output
      (S "Sure! ```json\n\x7b\"a\": \x7b\"b\": \x7b\"c\": 1\x7d\x7d\x7d\n``` done")
      (S "research") = .ok (.obj [(S "b", .obj [(S "c", .num (S "1"))])]) ∧
    json_loads (S "\x7b\"a\": \x7b\"b\": \x7b\"c\": 1\x7d\x7d\x7d") =
      .ok (.obj [(S "a", .obj [(S "b", .obj [(S "c", .num (S "1"))])])]) ∧
    topKeys (.obj [(S "b", .obj [(S "c", .num (S "1"))])]) ≠
      topKeys (.obj [(S "a", .obj [(S "b", .obj [(S "c", .num (S "1"))])])]) :=
  ⟨rfl, rfl, by decide⟩

/-- C2 (amended): for every raw provider text containing a bare JSON
object, the extraction step recovers exactly that object — provided the
text matches no fenced-block pattern, the text before the object contains
no opening brace, and the object's braces nest at most one level. -/
theorem c2_bare_extraction (pre content post stage : Chars) (v : Json)
    (hfence : fenceSearch (pre ++ ('\x7b' :: (content ++ '\x7d' :: post))) = none)
    (hpre : ∀ x ∈ pre, x ≠ '\x7b')
    (hc : B1 content)
    (hload : json_loads ('\x7b' :: content ++ ['\x7d']) = .ok v) :
    parse_json_output (pre ++ ('\x7b' :: (content ++ '\x7d' :: post))) stage = .ok v := by
  have hb : braceSearch (pre ++ ('\x7b' :: (content ++ '\x7d' :: post))) =
      some ('\x7b' :: content ++ ['\x7d']) := by
    rw [braceSearch_pre pre _ hpre]
    have h3 := braceSearch_body hc post
    simpa using h3
  simp only [parse_json_output, hfence, hb, hload]

/-- C2 witness: a concrete bare object surrounded by prose is recovered. -/
theorem c2_bare_extraction_witness :
    parse_json_output (S "note " ++ ('\x7b' :: (S "\"a\": 1" ++ '\x7d' :: S " end")))
      (S "copy") = .ok (.obj [(S "a", .num (S "1"))]) :=
  c2_bare_extraction (S "note ") (S "\"a\": 1") (S " end") (S "copy")
    (.obj [(S "a", .num (S "1"))]) (by decide) (by decide)
    (B1_of_no_braces _ (by decide)) rfl

/-- C2 counterexample: a bare object whose braces nest two levels deep is
not recovered equivalently; the regex returns an inner sub-object whose
top-level key list differs from the encoded object's. -/
theorem c2_bare_extraction_counterexample :
    parse_json_output (S "we got \x7b\"a\": \x7b\"b\": \x7b\"c\": 1\x7d\x7d\x7d ok")
      (S "copy") = .ok (.obj [(S "b", .obj [(S "c", .num (S "1"))])]) ∧
    json_loads (S "\x7b\"a\": \x7b\"b\": \x7b\"c\": 1\x7d\x7d\x7d") =
      .ok (.obj [(S "a", .obj [(S "b", .obj [(S "c", .num (S "1"))])])]) ∧
    topKeys (.obj [(S "b", .obj [(S "c", .num (S "1"))])]) ≠
      topKeys (.obj [(S "a", .obj [(S "b", .obj [(S "c", .num (S "1"))])])]) :=
  ⟨rfl, rfl, by decide⟩

/-- C3 (amended): for raw provider text in which neither regex of
`_parse_json_output` recovers a brace-delimited span and which is not
itself parseable as JSON, the function fails with the `ValueError` carrying
the stage, the parser message, and the first 200 characters of the
offending text — and with no other error shape. -/
theorem c3_no_json_failure (raw stage m : Chars)
    (hfence : fenceSearch raw = none)
    (hbrace : braceSearch raw = none)
    (hl : json_loads raw = .error m) :
    parse_json_output raw stage = .error ⟨stage, m, List.take 200 raw⟩ := by
  simp only [parse_json_output, hfence, hbrace, hl]

/-- C3 witness: `\x7boops` has an opening brace but no recoverable
brace-delimited span; the failure carries the stage name, the parser
message and the text prefix. -/
theorem c3_no_json_failure_witness :
    parse_json_output (S "\x7boops") (S "research") =
      .error ⟨S "research", S "Expecting property name enclosed in double quotes",
        List.take 200 (S "\x7boops")⟩ :=
  c3_no_json_failure (S "\x7boops") (S "research")
    (S "Expecting property name enclosed in double quotes") (by decide) (by decide) rfl

/-- C3 counterexample: the text `5` contains no brace-delimited span, yet
`_parse_json_output` does not fail — `json.loads` accepts it, so the
function returns the number instead of raising the `ValueError` the claim
asserts. -/
theorem c3_no_json_failure_counterexample :
    parse_json_output (S "5") (S "research") = .ok (.num (S "5")) := rfl

theorem asStringList_some (items : List Json) (l : List Chars)
    (h : asStringList items = some l) : items = l.map Json.str := by
  induction items generalizing l with
  | nil => simp [asStringList] at h; subst h; rfl
  | cons j rest ih =>
    cases j with
    | str s =>
      simp only [asStringList] at h
      rcases hrest : asStringList rest with _ | l2 <;> rw [hrest] at h
      · exact absurd h (by simp)
      · simp only [Option.some.injEq] at h
        subst h
        simp [ih l2 hrest]
    | null => simp [asStringList] at h
    | bool b => simp [asStringList] at h
    | num x => simp [asStringList] at h
    | arr x => simp [asStringList] at h
    | obj x => simp [asStringList] at h

theorem asStringList_map_str (xs : List Chars) :
    asStringList (xs.map Json.str) = some xs := by
  induction xs with
  | nil => rfl
  | cons x rest ih => simp [asStringList, ih]

/-- C5: `CopyOutput` validation rejects every parsed object whose
`subject_lines` sequence has length other than 3, whatever the other
fields; and accepts an object with exactly 3 string subject lines and valid
remaining fields. -/
theorem c5_subject_lines_exactly_three :
    (∀ (fields : List (Chars × Json)) (items : List Json),
      dictLookup fields (S "subject_lines") = some (.arr items) →
      items.length ≠ 3 →
      ∃ e, validateCopyOutput (.obj fields) = .error e) ∧
    (∀ (fields : List (Chars × Json)) (xs : List Chars) (p f : Chars),
      dictLookup fields (S "subject_lines") = some (.arr (xs.map Json.str)) →
      xs.length = 3 →
      dictLookup fields (S "primary_email") = some (.str p) →
      dictLookup fields (S "follow_up_email") = some (.str f) →
      validateCopyOutput (.obj fields) = .ok ⟨xs, p, f⟩) := by
  constructor
  · intro fields items hlook hlen
    rcases hsl : asStringList items with _ | l
    · simp only [validateCopyOutput, hlook, hsl]
      exact ⟨_, rfl⟩
    · have hll : l.length = items.length := by
        rw [asStringList_some items l hsl]; simp
      simp only [validateCopyOutput, hlook, hsl]
      rcases Nat.lt_or_ge l.length 3 with hlt | hge
      · rw [if_pos hlt]; exact ⟨_, rfl⟩
      · have hgt : 3 < l.length := by omega
        rw [if_neg (by omega), if_pos hgt]
        exact ⟨_, rfl⟩
  · intro fields xs p f hlook hlen hp hf
    simp only [validateCopyOutput, hlook, asStringList_map_str, hlen]
    rw [if_neg (by omega), if_neg (by omega), hp, hf]

/-- C5 witness: a two-subject-line object is rejected even with valid
remaining fields; a three-subject-line object is accepted. -/
theorem c5_subject_lines_exactly_three_witness :
    (∃ e, validateCopyOutput (.obj
      [(S "subject_lines", .arr [.str (S "a"), .str (S "b")]),
       (S "primary_email", .str (S "p")), (S "follow_up_email", .str (S "f"))]) = .error e) ∧
    validateCopyOutput (.obj
      [(S "subject_lines", .arr [.str (S "a"), .str (S "b"), .str (S "c")]),
       (S "primary_email", .str (S "p")), (S "follow_up_email", .str (S "f"))]) =
      .ok ⟨[S "a", S "b", S "c"], S "p", S "f"⟩ :=
  ⟨c5_subject_lines_exactly_three.1 _ [.str (S "a"), .str (S "b")] rfl (by decide),
   c5_subject_lines_exactly_three.2 _ [S "a", S "b", S "c"] (S "p") (S "f") rfl rfl rfl rfl⟩

theorem collapseWsAux_nonws (l : Chars) (h : ∀ c ∈ l, isPyWs c = false) :
    ∀ b, collapseWsAux b l = l := by
  induction l with
  | nil => intro b; rfl
  | cons c rest ih =>
    intro b
    have hc := h c (by simp)
    simp only [collapseWsAux, hc, Bool.false_eq_true, if_false]
    rw [ih (fun x hx => h x (by simp [hx])) false]

/-- C6 (amended): for every input text, the Page Extractor's output length
is at most the cap plus the three characters of the truncation marker. -/
theorem c6_extract_text_bounded (text : Chars) :
    (extract_text text).length ≤ MAX_CONTENT_LENGTH + 3 := by
  show (if MAX_CONTENT_LENGTH < (collapseWs text).length then
      List.take MAX_CONTENT_LENGTH (collapseWs text) ++ S "..." else collapseWs text).length ≤
      MAX_CONTENT_LENGTH + 3
  split
  · rw [List.length_append, List.length_take]
    have h3 : (S "...").length = 3 := rfl
    rw [h3]
    omega
  · next h => omega

/-- C6 counterexample: a 10001-character whitespace-free text is truncated
to the cap and then the three-character marker is appended, so the output
has 10003 characters, exceeding the 10000-character cap the claim
asserts. -/
theorem c6_extract_text_counterexample :
    MAX_CONTENT_LENGTH < (extract_text (List.replicate 10001 'a')).length := by
  have hcol : collapseWs (List.replicate 10001 'a') = List.replicate 10001 'a' :=
    collapseWsAux_nonws _ (fun c hc => by rw [List.eq_of_mem_replicate hc]; decide) false
  show MAX_CONTENT_LENGTH < (if MAX_CONTENT_LENGTH < (collapseWs (List.replicate 10001 'a')).length then
      List.take MAX_CONTENT_LENGTH (collapseWs (List.replicate 10001 'a')) ++ S "..."
    else collapseWs (List.replicate 10001 'a')).length
  rw [hcol]
  rw [if_pos (by rw [List.length_replicate, show MAX_CONTENT_LENGTH = 10000 from rfl]; omega)]
  rw [List.length_append, List.length_take, List.length_replicate]
  have h3 : (S "...").length = 3 := rfl
  rw [h3]
  rw [show MAX_CONTENT_LENGTH = 10000 from rfl]
  omega

/-- C7 (amended): every accepted `OutreachRequest` had its length bounds
checked on the raw (untrimmed) strings and stores the trimmed strings; a
field consisting only of whitespace passes the bounds and is therefore
stored as the empty string. -/
theorem c7_accepted_fields_trimmed
    (company_name company_website target_role product_description outreach_goal tone : Chars)
    (r : OutreachInput)
    (h : mkOutreachInput company_name company_website target_role product_description outreach_goal tone = .ok r) :
    (r.company_name = pyStrip company_name ∧ 1 ≤ company_name.length ∧ company_name.length ≤ 200) ∧
    (r.target_role = pyStrip target_role ∧ 1 ≤ target_role.length ∧ target_role.length ≤ 100) ∧
    (r.product_description = pyStrip product_description ∧
      10 ≤ product_description.length ∧ product_description.length ≤ 500) ∧
    (r.outreach_goal = pyStrip outreach_goal ∧
      5 ≤ outreach_goal.length ∧ outreach_goal.length ≤ 200) := by
  unfold mkOutreachInput at h
  split_ifs at h with h1 h2 h3 h4 h5
  push_neg at h1 h3 h4 h5
  rcases htone : toneOfString tone with _ | t <;> rw [htone] at h
  · exact Except.noConfusion h
  · simp only [Except.ok.injEq] at h
    subst h
    refine ⟨⟨rfl, ?_, ?_⟩, ⟨rfl, ?_, ?_⟩, ⟨rfl, ?_, ?_⟩, ⟨rfl, ?_, ?_⟩⟩ <;> omega

/-- C7 witness: a concrete accepted request has all four fields stored
trimmed and within the raw-length bounds. -/
theorem c7_accepted_fields_trimmed_witness :
    ((pyStrip (S " ") : Chars) = pyStrip (S " ") ∧ 1 ≤ (S " ").length ∧ (S " ").length ≤ 200) ∧
    ((pyStrip (S "VP of Engineering") : Chars) = pyStrip (S "VP of Engineering") ∧
      1 ≤ (S "VP of Engineering").length ∧ (S "VP of Engineering").length ≤ 100) ∧
    ((pyStrip (S "AI-powered code review tool") : Chars) = pyStrip (S "AI-powered code review tool") ∧
      10 ≤ (S "AI-powered code review tool").length ∧ (S "AI-powered code review tool").length ≤ 500) ∧
    ((pyStrip (S "Book a demo call") : Chars) = pyStrip (S "Book a demo call") ∧
      5 ≤ (S "Book a demo call").length ∧ (S "Book a demo call").length ≤ 200) :=
  c7_accepted_fields_trimmed (S " ") (S "https://acme.com") (S "VP of Engineering")
    (S "AI-powered code review tool") (S "Book a demo call") (S "professional")
    { company_name := pyStrip (S " ")
      company_website := S "https://acme.com"
      target_role := pyStrip (S "VP of Engineering")
      product_description := pyStrip (S "AI-powered code review tool")
      outreach_goal := pyStrip (S "Book a demo call")
      tone := .professional } rfl

/-- C7 counterexample: the whitespace-only company name passes validation
(the length bound is checked before the `strip_whitespace` after-validator
runs) and the accepted request stores an empty company name, contradicting
the claimed non-empty-after-trimming invariant. -/
theorem c7_accepted_fields_trimmed_counterexample :
    mkOutreachInput (S " ") (S "https://acme.com") (S "VP of Engineering")
      (S "AI-powered code review tool") (S "Book a demo call") (S "professional") =
      .ok { company_name := []
            company_website := S "https://acme.com"
            target_role := S "VP of Engineering"
            product_description := S "AI-powered code review tool"
            outreach_goal := S "Book a demo call"
            tone := .professional } := rfl

/-- A concrete validated input used by the pipeline witnesses. -/
def exInput : OutreachInput :=
  { company_name := S "Acme Corp"
    company_website := S "https://acme.com"
    target_role := S "VP of Engineering"
    product_description := S "AI-powered code review tool"
    outreach_goal := S "Book a demo call"
    tone := .professional }

/-- C9: the orchestrator is deterministic — two runs with the same input
and pointwise-equal deterministic generation ports produce identical
results (the run is a pure function of the input, the fetch outcome and the
port; it reads no other state). -/
theorem c9_deterministic_runs (input_data : OutreachInput)
    (fetchResult : Except ScraperErr Chars)
    (gen1 gen2 : StageLabel → Chars → Chars)
    (h : ∀ s p, gen1 s p = gen2 s p) :
    runPipeline input_data fetchResult gen1 = runPipeline input_data fetchResult gen2 := by
  have hg : gen1 = gen2 := funext fun s => funext fun p => h s p
  rw [hg]

/-- C9 witness: two runs over the same concrete port coincide. -/
theorem c9_deterministic_runs_witness :
    runPipeline exInput (.ok (S "Acme Corp site text")) (fun _ _ => S "no json") =
      runPipeline exInput (.ok (S "Acme Corp site text")) (fun _ _ => S "no json") :=
  c9_deterministic_runs exInput (.ok (S "Acme Corp site text")) _ _ (fun _ _ => rfl)

/-- C10: for every URL and HTTP outcome, `fetch_page` either returns the
extracted text or a `ScraperError`; an `httpx.HTTPError` and any other
exception of the body are both wrapped into `ScraperError` with the
corresponding message, so no other exception type escapes. -/
theorem c10_fetch_page_wraps (getText : Chars → Chars) (url : Chars)
    (httpResult : Except PyExc Chars) :
    ((∃ t, fetch_page getText url httpResult = .ok t) ∨
      (∃ m, fetch_page getText url httpResult = .error ⟨m⟩)) ∧
    (∀ m, fetch_page getText url (.error (.httpError m)) =
      .error ⟨S "Failed to fetch " ++ url ++ S ": " ++ m⟩) ∧
    (∀ m, fetch_page getText url (.error (.otherExc m)) =
      .error ⟨S "Unexpected error scraping " ++ url ++ S ": " ++ m⟩) := by
  refine ⟨?_, fun m => rfl, fun m => rfl⟩
  cases httpResult with
  | ok html => exact Or.inl ⟨_, rfl⟩
  | error e =>
    cases e with
    | httpError m => exact Or.inr ⟨_, rfl⟩
    | otherExc m => exact Or.inr ⟨_, rfl⟩

/-- C4: the pipeline short-circuits strictly — a fetch failure aborts the
run with zero generation-port invocations; a research-stage parse or
validation failure leaves the copy stage uninvoked; a copy-stage parse or
validation failure leaves the QA stage uninvoked. -/
theorem c4_strict_short_circuit (input_data : OutreachInput)
    (fetchResult : Except ScraperErr Chars) (gen : StageLabel → Chars → Chars) :
    (∀ e, fetchResult = .error e →
      runPipeline input_data fetchResult gen = (.error (.scraper e), [])) ∧
    (∀ w pe, fetchResult = .ok w →
      parse_json_output (gen .research (researchPrompt input_data.company_name w input_data.target_role))
        (S "research") = .error pe →
      (runPipeline input_data fetchResult gen).2 =
        [(StageLabel.research, researchPrompt input_data.company_name w input_data.target_role)]) ∧
    (∀ w rj m, fetchResult = .ok w →
      parse_json_output (gen .research (researchPrompt input_data.company_name w input_data.target_role))
        (S "research") = .ok rj →
      validateResearchOutput rj = .error m →
      (runPipeline input_data fetchResult gen).2 =
        [(StageLabel.research, researchPrompt input_data.company_name w input_data.target_role)]) ∧
    (∀ w rj rv pe, fetchResult = .ok w →
      parse_json_output (gen .research (researchPrompt input_data.company_name w input_data.target_role))
        (S "research") = .ok rj →
      validateResearchOutput rj = .ok rv →
      parse_json_output (gen .copy (copyPrompt input_data.company_name input_data.target_role
        input_data.product_description input_data.outreach_goal input_data.tone (jsonDumps2 rj)))
        (S "copy") = .error pe →
      (runPipeline input_data fetchResult gen).2 =
        [(StageLabel.research, researchPrompt input_data.company_name w input_data.target_role),
         (StageLabel.copy, copyPrompt input_data.company_name input_data.target_role
           input_data.product_description input_data.outreach_goal input_data.tone (jsonDumps2 rj))]) ∧
    (∀ w rj rv cj m, fetchResult = .ok w →
      parse_json_output (gen .research (researchPrompt input_data.company_name w input_data.target_role))
        (S "research") = .ok rj →
      validateResearchOutput rj = .ok rv →
      parse_json_output (gen .copy (copyPrompt input_data.company_name input_data.target_role
        input_data.product_description input_data.outreach_goal input_data.tone (jsonDumps2 rj)))
        (S "copy") = .ok cj →
      validateCopyOutput cj = .error m →
      (runPipeline input_data fetchResult gen).2 =
        [(StageLabel.research, researchPrompt input_data.company_name w input_data.target_role),
         (StageLabel.copy, copyPrompt input_data.company_name input_data.target_role
           input_data.product_description input_data.outreach_goal input_data.tone (jsonDumps2 rj))]) := by
  refine ⟨?_, ?_, ?_, ?_, ?_⟩
  · intro e he; subst he; rfl
  · intro w pe hw hp; subst hw
    simp [runPipeline, hp]
  · intro w rj m hw hp hv; subst hw
    simp [runPipeline, hp, hv]
  · intro w rj rv pe hw hp hv hcp; subst hw
    simp [runPipeline, hp, hv, hcp]
  · intro w rj rv cj m hw hp hv hcp hcv; subst hw
    simp [runPipeline, hp, hv, hcp, hcv]

/-- C4 witness: with a failing fetch, the run aborts with the scraper error
and an empty invocation trace. -/
theorem c4_strict_short_circuit_witness :
    runPipeline exInput (.error ⟨S "Failed to fetch https://acme.com: timeout"⟩)
      (fun _ _ => S "unused") =
      (.error (.scraper ⟨S "Failed to fetch https://acme.com: timeout"⟩), []) :=
  (c4_strict_short_circuit exInput (.error ⟨S "Failed to fetch https://acme.com: timeout"⟩)
    (fun _ _ => S "unused")).1 _ rfl

/-- C8: whenever the copy stage is invoked, its serialized research input
is exactly `json.dumps(research_output, indent=2)` of the research object
that was parsed and successfully validated; whenever the QA stage is
invoked, its serialized copy input is exactly
`json.dumps(copy_output, indent=2)` of the copy object that was parsed and
successfully validated. -/
theorem c8_serialized_stage_inputs (input_data : OutreachInput)
    (fetchResult : Except ScraperErr Chars) (gen : StageLabel → Chars → Chars) :
    (∀ p, (StageLabel.copy, p) ∈ (runPipeline input_data fetchResult gen).2 →
      ∃ w rj rv, fetchResult = .ok w ∧
        parse_json_output (gen .research (researchPrompt input_data.company_name w input_data.target_role))
          (S "research") = .ok rj ∧
        validateResearchOutput rj = .ok rv ∧
        p = copyPrompt input_data.company_name input_data.target_role
          input_data.product_description input_data.outreach_goal input_data.tone
          (jsonDumps2 rj)) ∧
    (∀ p, (StageLabel.qa, p) ∈ (runPipeline input_data fetchResult gen).2 →
      ∃ cp cj cv, (StageLabel.copy, cp) ∈ (runPipeline input_data fetchResult gen).2 ∧
        parse_json_output (gen .copy cp) (S "copy") = .ok cj ∧
        validateCopyOutput cj = .ok cv ∧
        p = qaPrompt (jsonDumps2 cj)) := by
  cases fetchResult with
  | error e =>
    constructor <;> intro p hp <;> simp [runPipeline] at hp
  | ok w =>
    rcases hrp : parse_json_output (gen .research (researchPrompt input_data.company_name w input_data.target_role))
        (S "research") with pe | rj
    · constructor <;> intro p hp <;> simp [runPipeline, hrp] at hp
    · rcases hrv : validateResearchOutput rj with m | rv
      · constructor <;> intro p hp <;> simp [runPipeline, hrp, hrv] at hp
      · rcases hcp : parse_json_output (gen .copy (copyPrompt input_data.company_name input_data.target_role
            input_data.product_description input_data.outreach_goal input_data.tone (jsonDumps2 rj)))
            (S "copy") with pe | cj
        · have htr : (runPipeline input_data (.ok w) gen).2 =
              [(StageLabel.research, researchPrompt input_data.company_name w input_data.target_role),
               (StageLabel.copy, copyPrompt input_data.company_name input_data.target_role
                 input_data.product_description input_data.outreach_goal input_data.tone (jsonDumps2 rj))] := by
            simp [runPipeline, hrp, hrv, hcp]
          constructor
          · intro p hp
            rw [htr] at hp
            simp at hp
            exact ⟨w, rj, rv, rfl, hrp, hrv, hp⟩
          · intro p hp
            rw [htr] at hp
            simp at hp
        · rcases hcv : validateCopyOutput cj with m | cv
          · have htr : (runPipeline input_data (.ok w) gen).2 =
                [(StageLabel.research, researchPrompt input_data.company_name w input_data.target_role),
                 (StageLabel.copy, copyPrompt input_data.company_name input_data.target_role
                   input_data.product_description input_data.outreach_goal input_data.tone (jsonDumps2 rj))] := by
              simp [runPipeline, hrp, hrv, hcp, hcv]
            constructor
            · intro p hp
              rw [htr] at hp
              simp at hp
              exact ⟨w, rj, rv, rfl, hrp, hrv, hp⟩
            · intro p hp
              rw [htr] at hp
              simp at hp
          · have htr : (runPipeline input_data (.ok w) gen).2 =
                [(StageLabel.research, researchPrompt input_data.company_name w input_data.target_role),
                 (StageLabel.copy, copyPrompt input_data.company_name input_data.target_role
                   input_data.product_description input_data.outreach_goal input_data.tone (jsonDumps2 rj)),
                 (StageLabel.qa, qaPrompt (jsonDumps2 cj))] := by
              simp only [runPipeline, hrp, hrv, hcp, hcv]
              split
              · rfl
              · split <;> rfl
            constructor
            · intro p hp
              rw [htr] at hp
              simp at hp
              exact ⟨w, rj, rv, rfl, hrp, hrv, hp⟩
            · intro p hp
              rw [htr] at hp
              simp at hp
              refine ⟨copyPrompt input_data.company_name input_data.target_role
                input_data.product_description input_data.outreach_goal input_data.tone
                (jsonDumps2 rj), cj, cv, ?_, hcp, hcv, hp⟩
              rw [htr]
              simp

/-- Concrete site text for the pipeline witnesses. -/
def exSite : Chars := S "Acme Corp recently launched a developer API"

/-- The research object the concrete witness port returns. -/
def exResearchJson : Json :=
  .obj [(S "industry", .str (S "tech")),
        (S "value_proposition", .str (S "speed")),
        (S "personalization_hooks", .arr [.str (S "launched an API")]),
        (S "company_summary", .str (S "a company"))]

/-- The copy object the concrete witness port returns. -/
def exCopyJson : Json :=
  .obj [(S "subject_lines", .arr [.str (S "s1"), .str (S "s2"), .str (S "s3")]),
        (S "primary_email", .str (S "p")),
        (S "follow_up_email", .str (S "f"))]

/-- A deterministic generation port returning well-formed stage outputs. -/
def exGen : StageLabel → Chars → Chars := fun s _ =>
  match s with
  | .research => S "\x7b\"industry\": \"tech\", \"value_proposition\": \"speed\", \"personalization_hooks\": [\"launched an API\"], \"company_summary\": \"a company\"\x7d"
  | .copy => S "\x7b\"subject_lines\": [\"s1\", \"s2\", \"s3\"], \"primary_email\": \"p\", \"follow_up_email\": \"f\"\x7d"
  | .qa => S "\x7b\"spam_risk_score\": \"low\", \"risk_factors\": [], \"analysis_notes\": \"ok\"\x7d"

set_option maxRecDepth 100000 in
/-- C8 witness: in a concrete successful run, the copy invocation's prompt
embeds exactly the `indent=2` serialization of the validated research
object. -/
theorem c8_serialized_stage_inputs_witness :
    ∃ w rj rv, (Except.ok exSite : Except ScraperErr Chars) = .ok w ∧
      parse_json_output (exGen .research (researchPrompt exInput.company_name w exInput.target_role))
        (S "research") = .ok rj ∧
      validateResearchOutput rj = .ok rv ∧
      copyPrompt exInput.company_name exInput.target_role exInput.product_description
        exInput.outreach_goal exInput.tone (jsonDumps2 exResearchJson) =
        copyPrompt exInput.company_name exInput.target_role exInput.product_description
          exInput.outreach_goal exInput.tone (jsonDumps2 rj) :=
  (c8_serialized_stage_inputs exInput (.ok exSite) exGen).1
    (copyPrompt exInput.company_name exInput.target_role exInput.product_description
      exInput.outreach_goal exInput.tone (jsonDumps2 exResearchJson))
    (by
      have htr : (runPipeline exInput (.ok exSite) exGen).2 =
          [(StageLabel.research, researchPrompt exInput.company_name exSite exInput.target_role),
           (StageLabel.copy, copyPrompt exInput.company_name exInput.target_role
             exInput.product_description exInput.outreach_goal exInput.tone (jsonDumps2 exResearchJson)),
           (StageLabel.qa, qaPrompt (jsonDumps2 exCopyJson))] := rfl
      rw [htr]
      exact List.mem_cons_of_mem _ (List.mem_cons_self _ _))
